import Mathlib

/-!
Shallow embedding of the atm-io-utils fault-injection harness.

The embedding follows the Rust sources:
* `src/partial.rs` — the `PartialOp` directive type, the `PartialRead` and
  `PartialWrite` stream decorators, and the quickcheck `shrink` adapter;
* `src/limited_reader.rs` — `LimitedReader`;
* `src/mock_duplex.rs` — `MockDuplex`.

Modelling conventions:
* A poll result `Poll<usize, Error>` (which in futures 0.2 is
  `Result<Async<usize>, Error>`) becomes `Except ε (Async Nat)`.
* The task context `cx` is modelled by a wake counter: `cx.waker().wake()`
  increments it.
* A wrapped stream is a state machine `RW σ ε`: each poll method maps the
  stream state (and, for read, the length of the destination window; for
  write, the bytes of the source window) to a result and a new state.
  Read buffers are identified by the length of the window handed to the
  inner stream, since the decorators never inspect or produce buffer
  contents on the read path; write buffers keep their contents as a list
  because the `Limited` branch slices the source (`&buf[..len]`).
* A directive sequence `Ops: Iterator<Item = PartialOp>` is a deterministic
  iterator: its observable behavior is the value returned by the i-th call
  to `next()`, so it is embedded as a function from the call counter to
  `Option PartialOp` together with the current position.  Rust iterators
  are not required to be fused, and this embedding keeps that generality;
  list-backed (fused) iterators are the `OpsIter.ofList` special case.
-/

namespace AtmIoUtils

/-- `futures_core::Async`: a poll either completes with a value or is pending. -/
inductive Async (α : Type) where
  | ready (a : α)
  | pending
deriving DecidableEq, Repr

/-- `Poll<T, E> = Result<Async<T>, E>` from futures 0.2. -/
abbrev PollRes (ε α : Type) : Type := Except ε (Async α)

/-- `PartialOp` from `src/partial.rs`: the directive consumed per operation. -/
inductive PartialOp where
  | Unlimited
  | Limited (n : Nat)
  | Pending
deriving DecidableEq, Repr

/-- A deterministic `Iterator<Item = PartialOp>`: `op? i` is what the
iterator's `next()` returns on its i-th call, `pos` counts calls made. -/
structure OpsIter where
  op? : Nat → Option PartialOp
  pos : Nat

/-- `Iterator::next`: yield the current element and advance the position. -/
def OpsIter.next (it : OpsIter) : Option PartialOp × OpsIter :=
  (it.op? it.pos, ⟨it.op?, it.pos + 1⟩)

/-- The iterator of a finite list of directives (a fused iterator). -/
def OpsIter.ofList (l : List PartialOp) : OpsIter :=
  ⟨fun i => l.get? i, 0⟩

/-- An abstract wrapped stream with `AsyncRead`/`AsyncWrite` capabilities:
state type `σ`, error type `ε`.  `pollRead s w` polls a read into a
destination window of `w` bytes; `pollWrite s b` polls a write from the
source bytes `b`; `pollFlush`/`pollClose` take no buffer. -/
structure RW (σ ε : Type) where
  pollRead : σ → Nat → PollRes ε Nat × σ
  pollWrite : σ → List Nat → PollRes ε Nat × σ
  pollFlush : σ → PollRes ε Unit × σ
  pollClose : σ → PollRes ε Unit × σ

/-- `PartialRead<R, Ops>` from `src/partial.rs`: a wrapped reader state and
a directive iterator. -/
structure PartialRead (σ : Type) where
  reader : σ
  ops : OpsIter

/-- `PartialRead::new`. -/
def PartialRead.new (reader : σ) (ops : OpsIter) : PartialRead σ :=
  ⟨reader, ops⟩

/-- `PartialRead::into_inner`. -/
def PartialRead.into_inner (p : PartialRead σ) : σ :=
  p.reader

/-- `PartialRead::poll_read` (src/partial.rs lines 57-70): consume one
directive via `ops.next()` and branch on it.  Returns the poll result, the
new decorator state and the new wake counter. -/
def PartialRead.poll_read (rw : RW σ ε) (p : PartialRead σ) (cx : Nat)
    (bufLen : Nat) : PollRes ε Nat × PartialRead σ × Nat :=
  let nx := p.ops.next
  match nx.1 with
  | none
  | some PartialOp.Unlimited =>
    let r := rw.pollRead p.reader bufLen
    (r.1, ⟨r.2, nx.2⟩, cx)
  | some PartialOp.Pending =>
    (Except.ok Async.pending, ⟨p.reader, nx.2⟩, cx + 1)
  | some (PartialOp.Limited n) =>
    let len := min n bufLen
    let r := rw.pollRead p.reader len
    (r.1, ⟨r.2, nx.2⟩, cx)

/-- `AsyncWrite for PartialRead` (src/partial.rs lines 73-91): pure
passthrough, no directive interaction. -/
def PartialRead.poll_write (rw : RW σ ε) (p : PartialRead σ) (cx : Nat)
    (buf : List Nat) : PollRes ε Nat × PartialRead σ × Nat :=
  let r := rw.pollWrite p.reader buf
  (r.1, ⟨r.2, p.ops⟩, cx)

/-- `PartialWrite<W, Ops>` from `src/partial.rs`. -/
structure PartialWrite (σ : Type) where
  writer : σ
  ops : OpsIter

/-- `PartialWrite::new`. -/
def PartialWrite.new (writer : σ) (ops : OpsIter) : PartialWrite σ :=
  ⟨writer, ops⟩

/-- `PartialWrite::into_inner`. -/
def PartialWrite.into_inner (p : PartialWrite σ) : σ :=
  p.writer

/-- `PartialWrite::poll_write` (src/partial.rs lines 127-140). -/
def PartialWrite.poll_write (rw : RW σ ε) (p : PartialWrite σ) (cx : Nat)
    (buf : List Nat) : PollRes ε Nat × PartialWrite σ × Nat :=
  let nx := p.ops.next
  match nx.1 with
  | none
  | some PartialOp.Unlimited =>
    let r := rw.pollWrite p.writer buf
    (r.1, ⟨r.2, nx.2⟩, cx)
  | some PartialOp.Pending =>
    (Except.ok Async.pending, ⟨p.writer, nx.2⟩, cx + 1)
  | some (PartialOp.Limited n) =>
    let len := min n buf.length
    let r := rw.pollWrite p.writer (buf.take len)
    (r.1, ⟨r.2, nx.2⟩, cx)

/-- `PartialWrite::poll_flush` (src/partial.rs lines 142-150): a `Pending`
directive defers and wakes; any other directive or exhaustion delegates. -/
def PartialWrite.poll_flush (rw : RW σ ε) (p : PartialWrite σ) (cx : Nat) :
    PollRes ε Unit × PartialWrite σ × Nat :=
  let nx := p.ops.next
  match nx.1 with
  | some PartialOp.Pending =>
    (Except.ok Async.pending, ⟨p.writer, nx.2⟩, cx + 1)
  | _ =>
    let r := rw.pollFlush p.writer
    (r.1, ⟨r.2, nx.2⟩, cx)

/-- `PartialWrite::poll_close` (src/partial.rs lines 152-160). -/
def PartialWrite.poll_close (rw : RW σ ε) (p : PartialWrite σ) (cx : Nat) :
    PollRes ε Unit × PartialWrite σ × Nat :=
  let nx := p.ops.next
  match nx.1 with
  | some PartialOp.Pending =>
    (Except.ok Async.pending, ⟨p.writer, nx.2⟩, cx + 1)
  | _ =>
    let r := rw.pollClose p.writer
    (r.1, ⟨r.2, nx.2⟩, cx)

/-- `AsyncRead for PartialWrite` (src/partial.rs lines 163-169): pure
passthrough. -/
def PartialWrite.poll_read (rw : RW σ ε) (p : PartialWrite σ) (cx : Nat)
    (bufLen : Nat) : PollRes ε Nat × PartialWrite σ × Nat :=
  let r := rw.pollRead p.writer bufLen
  (r.1, ⟨r.2, p.ops⟩, cx)

/-- `LimitedReader<R>` from `src/limited_reader.rs`. -/
structure LimitedReader (σ : Type) where
  inner : σ
  remaining : Nat

/-- `LimitedReader::new` (src/limited_reader.rs lines 18-23). -/
def LimitedReader.new (inner : σ) (limit : Nat) : LimitedReader σ :=
  ⟨inner, limit⟩

/-- `LimitedReader::poll_read` (src/limited_reader.rs lines 27-30):
delegate with the window `min(remaining, buf.len())`; `remaining` is never
written. -/
def LimitedReader.poll_read (rw : RW σ ε) (l : LimitedReader σ) (cx : Nat)
    (bufLen : Nat) : PollRes ε Nat × LimitedReader σ × Nat :=
  let upper := min l.remaining bufLen
  let r := rw.pollRead l.inner upper
  (r.1, ⟨r.2, l.remaining⟩, cx)

/-- `MockDuplex` from `src/mock_duplex.rs`: two FIFO byte queues. -/
structure MockDuplex where
  reads : List Nat
  writes : List Nat
deriving DecidableEq, Repr

/-- `MockDuplex::new`. -/
def MockDuplex.new : MockDuplex :=
  ⟨[], []⟩

/-- `MockDuplex::add_read_data`: push the bytes onto the back of the read
queue. -/
def MockDuplex.add_read_data (m : MockDuplex) (bytes : List Nat) :
    MockDuplex :=
  ⟨m.reads ++ bytes, m.writes⟩

/-- `VecDeque::drain(0..k)`: remove and yield the first `k` elements.
Panics (modelled as `none`) when `k` exceeds the queue length. -/
def drainFront (q : List Nat) (k : Nat) : Option (List Nat × List Nat) :=
  if k ≤ q.length then some (q.take k, q.drop k) else none

/-- `Read for MockDuplex` (src/mock_duplex.rs lines 56-65): drain
`0..buf.len()` from the read queue into `buf`, return the drained count.
The result is the count, the bytes placed into the buffer, and the new
state; `none` models the panic of an out-of-bounds drain. -/
def MockDuplex.read (m : MockDuplex) (bufLen : Nat) :
    Option (Nat × List Nat × MockDuplex) :=
  match drainFront m.reads bufLen with
  | none => none
  | some (d, rest) => some (d.length, d, ⟨rest, m.writes⟩)

/-- `MockDuplex::drain_write_data` (src/mock_duplex.rs lines 35-44): drain
`0..buf.len()` from the write queue into `buf`.  `none` models the panic of
an out-of-bounds drain. -/
def MockDuplex.drain_write_data (m : MockDuplex) (bufLen : Nat) :
    Option (Nat × List Nat × MockDuplex) :=
  match drainFront m.writes bufLen with
  | none => none
  | some (d, rest) => some (d.length, d, ⟨m.reads, rest⟩)

/-- `Write for MockDuplex` (src/mock_duplex.rs lines 73-79): append all
bytes to the write queue, return `buf.len()`. -/
def MockDuplex.write (m : MockDuplex) (buf : List Nat) : Nat × MockDuplex :=
  (buf.length, ⟨m.reads, m.writes ++ buf⟩)

/-- quickcheck's `UnsignedShrinker` loop: starting from `i = x / 2`, while
`i > 0` yield `x - i` and halve `i`. -/
def unsignedShrinkAux (x : Nat) : Nat → List Nat
  | 0 => []
  | i + 1 => (x - (i + 1)) :: unsignedShrinkAux x ((i + 1) / 2)
decreasing_by exact Nat.div_lt_self (Nat.succ_pos i) (by decide)

/-- quickcheck's `Arbitrary::shrink` for an unsigned integer: empty for 0,
otherwise `0` followed by the `UnsignedShrinker` values. -/
def shrinkUsize (x : Nat) : List Nat :=
  if x = 0 then [] else 0 :: unsignedShrinkAux x (x / 2)

/-- `PartialOp::shrink` (src/partial.rs lines 194-201): shrink the bound of
`Limited`, filtering out zero; the other variants yield the empty
shrinker. -/
def PartialOp.shrink : PartialOp → List PartialOp
  | PartialOp.Limited n =>
    ((shrinkUsize n).filter (fun k => k ≠ 0)).map PartialOp.Limited
  | _ => []

/-! Concrete streams used to instantiate the generic theorems. -/

/-- A well-behaved concrete stream over a call counter: every poll is ready,
reads report the full window, writes accept the whole source. -/
def echoRW : RW Nat Unit where
  pollRead := fun s L => (Except.ok (Async.ready L), s + 1)
  pollWrite := fun s b => (Except.ok (Async.ready b.length), s + 1)
  pollFlush := fun s => (Except.ok (Async.ready ()), s + 1)
  pollClose := fun s => (Except.ok (Async.ready ()), s + 1)

/-- A concrete stream whose every poll fails with error `7`. -/
def errRW : RW Unit Nat where
  pollRead := fun s _ => (Except.error 7, s)
  pollWrite := fun s _ => (Except.error 7, s)
  pollFlush := fun s => (Except.error 7, s)
  pollClose := fun s => (Except.error 7, s)

/-- A non-fused directive iterator: the first `next()` signals exhaustion,
every later `next()` yields `Pending` again.  Legal for a Rust
`Iterator`, whose contract allows `next()` to resume after `None`. -/
def nonFusedOps : OpsIter :=
  ⟨fun i => if i = 0 then none else some PartialOp.Pending, 0⟩

/-- A write-side call on a `PartialWrite`: one of the three directive-aware
operations. -/
inductive WCall where
  | write (buf : List Nat)
  | flush
  | close

/-- Drive a `PartialWrite` through a list of calls, threading the decorator
state and the wake counter. -/
def PartialWrite.run (rw : RW σ ε) (q : PartialWrite σ) (cx : Nat) :
    List WCall → PartialWrite σ × Nat
  | [] => (q, cx)
  | WCall.write buf :: cs =>
    let r := PartialWrite.poll_write rw q cx buf
    PartialWrite.run rw r.2.1 r.2.2 cs
  | WCall.flush :: cs =>
    let r := PartialWrite.poll_flush rw q cx
    PartialWrite.run rw r.2.1 r.2.2 cs
  | WCall.close :: cs =>
    let r := PartialWrite.poll_close rw q cx
    PartialWrite.run rw r.2.1 r.2.2 cs

/-- Drive a `PartialRead` through a list of reads (one buffer length per
call), threading the decorator state and the wake counter. -/
def PartialRead.runReads (rw : RW σ ε) (p : PartialRead σ) (cx : Nat) :
    List Nat → PartialRead σ × Nat
  | [] => (p, cx)
  | L :: Ls =>
    let r := PartialRead.poll_read rw p cx L
    PartialRead.runReads rw r.2.1 r.2.2 Ls

/-! Reduction lemmas: how each decorator operation evaluates once the
current directive is known. -/

lemma PartialRead.poll_read_none (rw : RW σ ε) (p : PartialRead σ)
    (cx bufLen : Nat) (h : p.ops.op? p.ops.pos = none) :
    PartialRead.poll_read rw p cx bufLen =
      ((rw.pollRead p.reader bufLen).1,
        ⟨(rw.pollRead p.reader bufLen).2, ⟨p.ops.op?, p.ops.pos + 1⟩⟩, cx) := by
  simp [PartialRead.poll_read, OpsIter.next, h]

lemma PartialRead.poll_read_unlimited (rw : RW σ ε) (p : PartialRead σ)
    (cx bufLen : Nat) (h : p.ops.op? p.ops.pos = some PartialOp.Unlimited) :
    PartialRead.poll_read rw p cx bufLen =
      ((rw.pollRead p.reader bufLen).1,
        ⟨(rw.pollRead p.reader bufLen).2, ⟨p.ops.op?, p.ops.pos + 1⟩⟩, cx) := by
  simp [PartialRead.poll_read, OpsIter.next, h]

lemma PartialRead.poll_read_pending (rw : RW σ ε) (p : PartialRead σ)
    (cx bufLen : Nat) (h : p.ops.op? p.ops.pos = some PartialOp.Pending) :
    PartialRead.poll_read rw p cx bufLen =
      (Except.ok Async.pending, ⟨p.reader, ⟨p.ops.op?, p.ops.pos + 1⟩⟩, cx + 1) := by
  simp [PartialRead.poll_read, OpsIter.next, h]

lemma PartialRead.poll_read_limited (rw : RW σ ε) (p : PartialRead σ)
    (cx bufLen n : Nat) (h : p.ops.op? p.ops.pos = some (PartialOp.Limited n)) :
    PartialRead.poll_read rw p cx bufLen =
      ((rw.pollRead p.reader (min n bufLen)).1,
        ⟨(rw.pollRead p.reader (min n bufLen)).2, ⟨p.ops.op?, p.ops.pos + 1⟩⟩, cx) := by
  simp [PartialRead.poll_read, OpsIter.next, h]

lemma PartialWrite.poll_write_none (rw : RW σ ε) (q : PartialWrite σ)
    (cx : Nat) (buf : List Nat) (h : q.ops.op? q.ops.pos = none) :
    PartialWrite.poll_write rw q cx buf =
      ((rw.pollWrite q.writer buf).1,
        ⟨(rw.pollWrite q.writer buf).2, ⟨q.ops.op?, q.ops.pos + 1⟩⟩, cx) := by
  simp [PartialWrite.poll_write, OpsIter.next, h]

lemma PartialWrite.poll_write_unlimited (rw : RW σ ε) (q : PartialWrite σ)
    (cx : Nat) (buf : List Nat)
    (h : q.ops.op? q.ops.pos = some PartialOp.Unlimited) :
    PartialWrite.poll_write rw q cx buf =
      ((rw.pollWrite q.writer buf).1,
        ⟨(rw.pollWrite q.writer buf).2, ⟨q.ops.op?, q.ops.pos + 1⟩⟩, cx) := by
  simp [PartialWrite.poll_write, OpsIter.next, h]

lemma PartialWrite.poll_write_pending (rw : RW σ ε) (q : PartialWrite σ)
    (cx : Nat) (buf : List Nat)
    (h : q.ops.op? q.ops.pos = some PartialOp.Pending) :
    PartialWrite.poll_write rw q cx buf =
      (Except.ok Async.pending, ⟨q.writer, ⟨q.ops.op?, q.ops.pos + 1⟩⟩, cx + 1) := by
  simp [PartialWrite.poll_write, OpsIter.next, h]

lemma PartialWrite.poll_write_limited (rw : RW σ ε) (q : PartialWrite σ)
    (cx n : Nat) (buf : List Nat)
    (h : q.ops.op? q.ops.pos = some (PartialOp.Limited n)) :
    PartialWrite.poll_write rw q cx buf =
      ((rw.pollWrite q.writer (buf.take (min n buf.length))).1,
        ⟨(rw.pollWrite q.writer (buf.take (min n buf.length))).2,
          ⟨q.ops.op?, q.ops.pos + 1⟩⟩, cx) := by
  simp [PartialWrite.poll_write, OpsIter.next, h]

lemma PartialWrite.poll_flush_pending (rw : RW σ ε) (q : PartialWrite σ)
    (cx : Nat) (h : q.ops.op? q.ops.pos = some PartialOp.Pending) :
    PartialWrite.poll_flush rw q cx =
      (Except.ok Async.pending, ⟨q.writer, ⟨q.ops.op?, q.ops.pos + 1⟩⟩, cx + 1) := by
  simp [PartialWrite.poll_flush, OpsIter.next, h]

lemma PartialWrite.poll_flush_other (rw : RW σ ε) (q : PartialWrite σ)
    (cx : Nat) (h : q.ops.op? q.ops.pos ≠ some PartialOp.Pending) :
    PartialWrite.poll_flush rw q cx =
      ((rw.pollFlush q.writer).1,
        ⟨(rw.pollFlush q.writer).2, ⟨q.ops.op?, q.ops.pos + 1⟩⟩, cx) := by
  rcases hd : q.ops.op? q.ops.pos with _ | op
  · simp [PartialWrite.poll_flush, OpsIter.next, hd]
  · cases op <;> simp_all [PartialWrite.poll_flush, OpsIter.next, hd]

lemma PartialWrite.poll_close_pending (rw : RW σ ε) (q : PartialWrite σ)
    (cx : Nat) (h : q.ops.op? q.ops.pos = some PartialOp.Pending) :
    PartialWrite.poll_close rw q cx =
      (Except.ok Async.pending, ⟨q.writer, ⟨q.ops.op?, q.ops.pos + 1⟩⟩, cx + 1) := by
  simp [PartialWrite.poll_close, OpsIter.next, h]

lemma PartialWrite.poll_close_other (rw : RW σ ε) (q : PartialWrite σ)
    (cx : Nat) (h : q.ops.op? q.ops.pos ≠ some PartialOp.Pending) :
    PartialWrite.poll_close rw q cx =
      ((rw.pollClose q.writer).1,
        ⟨(rw.pollClose q.writer).2, ⟨q.ops.op?, q.ops.pos + 1⟩⟩, cx) := by
  rcases hd : q.ops.op? q.ops.pos with _ | op
  · simp [PartialWrite.poll_close, OpsIter.next, hd]
  · cases op <;> simp_all [PartialWrite.poll_close, OpsIter.next, hd]

/-- After any `poll_read` on a `PartialRead`, the directive iterator has
advanced by exactly one position and its producing function is intact. -/
lemma PartialRead.poll_read_ops (rw : RW σ ε) (p : PartialRead σ)
    (cx bufLen : Nat) :
    (PartialRead.poll_read rw p cx bufLen).2.1.ops =
      ⟨p.ops.op?, p.ops.pos + 1⟩ := by
  rcases hd : p.ops.op? p.ops.pos with _ | op
  · rw [PartialRead.poll_read_none rw p cx bufLen hd]
  · cases op
    · rw [PartialRead.poll_read_unlimited rw p cx bufLen hd]
    · rw [PartialRead.poll_read_limited rw p cx bufLen _ hd]
    · rw [PartialRead.poll_read_pending rw p cx bufLen hd]

/-- After any `poll_write`, the directive iterator advanced by one. -/
lemma PartialWrite.poll_write_ops (rw : RW σ ε) (q : PartialWrite σ)
    (cx : Nat) (buf : List Nat) :
    (PartialWrite.poll_write rw q cx buf).2.1.ops =
      ⟨q.ops.op?, q.ops.pos + 1⟩ := by
  rcases hd : q.ops.op? q.ops.pos with _ | op
  · rw [PartialWrite.poll_write_none rw q cx buf hd]
  · cases op
    · rw [PartialWrite.poll_write_unlimited rw q cx buf hd]
    · rw [PartialWrite.poll_write_limited rw q cx _ buf hd]
    · rw [PartialWrite.poll_write_pending rw q cx buf hd]

/-- After any `poll_flush`, the directive iterator advanced by one. -/
lemma PartialWrite.poll_flush_ops (rw : RW σ ε) (q : PartialWrite σ)
    (cx : Nat) :
    (PartialWrite.poll_flush rw q cx).2.1.ops =
      ⟨q.ops.op?, q.ops.pos + 1⟩ := by
  by_cases hd : q.ops.op? q.ops.pos = some PartialOp.Pending
  · rw [PartialWrite.poll_flush_pending rw q cx hd]
  · rw [PartialWrite.poll_flush_other rw q cx hd]

/-- After any `poll_close`, the directive iterator advanced by one. -/
lemma PartialWrite.poll_close_ops (rw : RW σ ε) (q : PartialWrite σ)
    (cx : Nat) :
    (PartialWrite.poll_close rw q cx).2.1.ops =
      ⟨q.ops.op?, q.ops.pos + 1⟩ := by
  by_cases hd : q.ops.op? q.ops.pos = some PartialOp.Pending
  · rw [PartialWrite.poll_close_pending rw q cx hd]
  · rw [PartialWrite.poll_close_other rw q cx hd]

/-- A run of `k` reads advances the directive position by exactly `k`. -/
lemma PartialRead.runReads_pos (rw : RW σ ε) (reads : List Nat) :
    ∀ (p : PartialRead σ) (cx : Nat),
      (PartialRead.runReads rw p cx reads).1.ops.pos =
        p.ops.pos + reads.length := by
  induction reads with
  | nil => intro p cx; simp [PartialRead.runReads]
  | cons L Ls ih =>
    intro p cx
    simp only [PartialRead.runReads]
    rw [ih, PartialRead.poll_read_ops]
    simp [Nat.add_comm, Nat.add_assoc, Nat.add_left_comm]

/-- A run of `k` write-side calls advances the directive position by
exactly `k`. -/
lemma PartialWrite.run_pos (rw : RW σ ε) (calls : List WCall) :
    ∀ (q : PartialWrite σ) (cx : Nat),
      (PartialWrite.run rw q cx calls).1.ops.pos =
        q.ops.pos + calls.length := by
  induction calls with
  | nil => intro q cx; simp [PartialWrite.run]
  | cons c cs ih =>
    intro q cx
    cases c with
    | write buf =>
      simp only [PartialWrite.run]
      rw [ih, PartialWrite.poll_write_ops]
      simp [Nat.add_comm, Nat.add_assoc, Nat.add_left_comm]
    | flush =>
      simp only [PartialWrite.run]
      rw [ih, PartialWrite.poll_flush_ops]
      simp [Nat.add_comm, Nat.add_assoc, Nat.add_left_comm]
    | close =>
      simp only [PartialWrite.run]
      rw [ih, PartialWrite.poll_close_ops]
      simp [Nat.add_comm, Nat.add_assoc, Nat.add_left_comm]

/-- C1: when a read on `PartialRead` or a write on `PartialWrite` consumes
`Limited(n)` with buffer length `L`, the call delegates to the wrapped
stream with a window of exactly `min n L` bytes (the first `min n L` bytes
of the source buffer on the write side), and — provided the wrapped stream
never reports a count larger than the buffer it was handed — the count
returned to the caller never exceeds `min n L`. -/
theorem limited_window_exact
    (rw : RW σ ε) (p : PartialRead σ) (q : PartialWrite σ)
    (cx bufLen n m : Nat) (buf : List Nat)
    (hp : p.ops.op? p.ops.pos = some (PartialOp.Limited n))
    (hq : q.ops.op? q.ops.pos = some (PartialOp.Limited m))
    (hr : ∀ s L c, (rw.pollRead s L).1 = Except.ok (Async.ready c) → c ≤ L)
    (hw : ∀ s b c, (rw.pollWrite s b).1 = Except.ok (Async.ready c) →
      c ≤ b.length) :
    (PartialRead.poll_read rw p cx bufLen).1 =
      (rw.pollRead p.reader (min n bufLen)).1 ∧
    (∀ c, (PartialRead.poll_read rw p cx bufLen).1 =
      Except.ok (Async.ready c) → c ≤ min n bufLen) ∧
    (PartialWrite.poll_write rw q cx buf).1 =
      (rw.pollWrite q.writer (buf.take (min m buf.length))).1 ∧
    (∀ c, (PartialWrite.poll_write rw q cx buf).1 =
      Except.ok (Async.ready c) → c ≤ min m buf.length) := by
  rw [PartialRead.poll_read_limited rw p cx bufLen n hp,
    PartialWrite.poll_write_limited rw q cx m buf hq]
  refine ⟨rfl, ?_, rfl, ?_⟩
  · intro c hc
    exact hr p.reader (min n bufLen) c hc
  · intro c hc
    have h1 := hw q.writer (buf.take (min m buf.length)) c hc
    have h2 : (buf.take (min m buf.length)).length = min m buf.length := by
      rw [List.length_take]; omega
    omega

/-- Witness for C1 at a concrete stream, directive `Limited 3` and buffer
length 10. -/
theorem limited_window_exact_witness :
    (PartialRead.poll_read echoRW
        (PartialRead.new 0 (OpsIter.ofList [PartialOp.Limited 3])) 0 10).1 =
      (echoRW.pollRead 0 (min 3 10)).1 ∧
    (∀ c, (PartialRead.poll_read echoRW
        (PartialRead.new 0 (OpsIter.ofList [PartialOp.Limited 3])) 0 10).1 =
      Except.ok (Async.ready c) → c ≤ min 3 10) ∧
    (PartialWrite.poll_write echoRW
        (PartialWrite.new 0 (OpsIter.ofList [PartialOp.Limited 3])) 0
        [1, 2, 3, 4, 5]).1 =
      (echoRW.pollWrite 0 ([1, 2, 3, 4, 5].take (min 3 5))).1 ∧
    (∀ c, (PartialWrite.poll_write echoRW
        (PartialWrite.new 0 (OpsIter.ofList [PartialOp.Limited 3])) 0
        [1, 2, 3, 4, 5]).1 =
      Except.ok (Async.ready c) → c ≤ min 3 5) :=
  limited_window_exact echoRW
    (PartialRead.new 0 (OpsIter.ofList [PartialOp.Limited 3]))
    (PartialWrite.new 0 (OpsIter.ofList [PartialOp.Limited 3]))
    0 10 3 3 [1, 2, 3, 4, 5] rfl rfl
    (by intro s L c h; simp [echoRW] at h; omega)
    (by intro s b c h; simp [echoRW] at h; omega)

/-- C2: an operation that consumes a `Pending` directive returns
`Ok(Pending)`, wakes the task (wake counter incremented), leaves the
wrapped stream untouched (inner state unchanged since no inner poll runs),
returns no error and no byte count; in particular with directives
`[Pending, Unlimited]` the wrapped write stream observes exactly one write
call across two decorator write calls, the first of which is not ready and
wakes. -/
theorem pending_defers_and_wakes
    (rw : RW σ ε) (p : PartialRead σ) (q : PartialWrite σ)
    (cx bufLen : Nat) (buf : List Nat)
    (hp : p.ops.op? p.ops.pos = some PartialOp.Pending)
    (hq : q.ops.op? q.ops.pos = some PartialOp.Pending) :
    PartialRead.poll_read rw p cx bufLen =
      (Except.ok Async.pending, ⟨p.reader, ⟨p.ops.op?, p.ops.pos + 1⟩⟩,
        cx + 1) ∧
    PartialWrite.poll_write rw q cx buf =
      (Except.ok Async.pending, ⟨q.writer, ⟨q.ops.op?, q.ops.pos + 1⟩⟩,
        cx + 1) ∧
    PartialWrite.poll_flush rw q cx =
      (Except.ok Async.pending, ⟨q.writer, ⟨q.ops.op?, q.ops.pos + 1⟩⟩,
        cx + 1) ∧
    PartialWrite.poll_close rw q cx =
      (Except.ok Async.pending, ⟨q.writer, ⟨q.ops.op?, q.ops.pos + 1⟩⟩,
        cx + 1) ∧
    (PartialWrite.poll_write echoRW
        (PartialWrite.new 0
          (OpsIter.ofList [PartialOp.Pending, PartialOp.Unlimited]))
        0 [1, 2]).1 = Except.ok Async.pending ∧
    (PartialWrite.poll_write echoRW
        (PartialWrite.new 0
          (OpsIter.ofList [PartialOp.Pending, PartialOp.Unlimited]))
        0 [1, 2]).2.2 = 1 ∧
    (PartialWrite.run echoRW
        (PartialWrite.new 0
          (OpsIter.ofList [PartialOp.Pending, PartialOp.Unlimited]))
        0 [WCall.write [1, 2], WCall.write [1, 2]]).1.writer = 1 :=
  ⟨PartialRead.poll_read_pending rw p cx bufLen hp,
   PartialWrite.poll_write_pending rw q cx buf hq,
   PartialWrite.poll_flush_pending rw q cx hq,
   PartialWrite.poll_close_pending rw q cx hq,
   rfl, rfl, rfl⟩

/-- Witness for C2 at a concrete stream with directive list `[Pending]`. -/
theorem pending_defers_and_wakes_witness :
    PartialRead.poll_read echoRW
        (PartialRead.new 0 (OpsIter.ofList [PartialOp.Pending])) 3 7 =
      (Except.ok Async.pending,
        ⟨0, ⟨fun i => [PartialOp.Pending].get? i, 1⟩⟩, 4) :=
  (pending_defers_and_wakes echoRW
    (PartialRead.new 0 (OpsIter.ofList [PartialOp.Pending]))
    (PartialWrite.new 0 (OpsIter.ofList [PartialOp.Pending]))
    3 7 [9] rfl rfl).1

/-- C3: every directive-aware operation advances the directive iterator by
exactly one position and leaves its producing function intact, on every
branch; consequently a run of `k` operations consumes exactly `k`
directives, in invocation order. -/
theorem one_directive_per_invocation
    (rw : RW σ ε) (p : PartialRead σ) (q : PartialWrite σ)
    (cx bufLen : Nat) (buf : List Nat)
    (reads : List Nat) (calls : List WCall) :
    (PartialRead.poll_read rw p cx bufLen).2.1.ops =
      ⟨p.ops.op?, p.ops.pos + 1⟩ ∧
    (PartialWrite.poll_write rw q cx buf).2.1.ops =
      ⟨q.ops.op?, q.ops.pos + 1⟩ ∧
    (PartialWrite.poll_flush rw q cx).2.1.ops =
      ⟨q.ops.op?, q.ops.pos + 1⟩ ∧
    (PartialWrite.poll_close rw q cx).2.1.ops =
      ⟨q.ops.op?, q.ops.pos + 1⟩ ∧
    (PartialRead.runReads rw p cx reads).1.ops.pos =
      p.ops.pos + reads.length ∧
    (PartialWrite.run rw q cx calls).1.ops.pos =
      q.ops.pos + calls.length :=
  ⟨PartialRead.poll_read_ops rw p cx bufLen,
   PartialWrite.poll_write_ops rw q cx buf,
   PartialWrite.poll_flush_ops rw q cx,
   PartialWrite.poll_close_ops rw q cx,
   PartialRead.runReads_pos rw reads p cx,
   PartialWrite.run_pos rw calls q cx⟩

/-- C4: if every `next()` of the directive iterator yields `Unlimited` or
signals exhaustion (all-`Unlimited` or empty sequences), then each
decorator operation returns exactly what the wrapped stream returns for
the same call with the same buffer, steps the wrapped stream exactly as a
direct call would, and never touches the wake counter. -/
theorem unlimited_sequences_transparent
    (rw : RW σ ε) (p : PartialRead σ) (q : PartialWrite σ)
    (cx bufLen : Nat) (buf : List Nat)
    (hp : ∀ i, p.ops.op? i = some PartialOp.Unlimited ∨ p.ops.op? i = none)
    (hq : ∀ i, q.ops.op? i = some PartialOp.Unlimited ∨ q.ops.op? i = none) :
    PartialRead.poll_read rw p cx bufLen =
      ((rw.pollRead p.reader bufLen).1,
        ⟨(rw.pollRead p.reader bufLen).2, ⟨p.ops.op?, p.ops.pos + 1⟩⟩, cx) ∧
    PartialWrite.poll_write rw q cx buf =
      ((rw.pollWrite q.writer buf).1,
        ⟨(rw.pollWrite q.writer buf).2, ⟨q.ops.op?, q.ops.pos + 1⟩⟩, cx) ∧
    PartialWrite.poll_flush rw q cx =
      ((rw.pollFlush q.writer).1,
        ⟨(rw.pollFlush q.writer).2, ⟨q.ops.op?, q.ops.pos + 1⟩⟩, cx) ∧
    PartialWrite.poll_close rw q cx =
      ((rw.pollClose q.writer).1,
        ⟨(rw.pollClose q.writer).2, ⟨q.ops.op?, q.ops.pos + 1⟩⟩, cx) := by
  refine ⟨?_, ?_, ?_, ?_⟩
  · rcases hp p.ops.pos with h | h
    · exact PartialRead.poll_read_unlimited rw p cx bufLen h
    · exact PartialRead.poll_read_none rw p cx bufLen h
  · rcases hq q.ops.pos with h | h
    · exact PartialWrite.poll_write_unlimited rw q cx buf h
    · exact PartialWrite.poll_write_none rw q cx buf h
  · refine PartialWrite.poll_flush_other rw q cx ?_
    rcases hq q.ops.pos with h | h <;> simp [h]
  · refine PartialWrite.poll_close_other rw q cx ?_
    rcases hq q.ops.pos with h | h <;> simp [h]

/-- Witness for C4: an empty directive list on both decorators behaves as
the wrapped stream. -/
theorem unlimited_sequences_transparent_witness :
    PartialRead.poll_read echoRW (PartialRead.new 0 (OpsIter.ofList [])) 2 6 =
      ((echoRW.pollRead 0 6).1,
        ⟨(echoRW.pollRead 0 6).2, ⟨fun i => ([] : List PartialOp).get? i, 1⟩⟩,
        2) :=
  (unlimited_sequences_transparent echoRW
    (PartialRead.new 0 (OpsIter.ofList []))
    (PartialWrite.new 0 (OpsIter.ofList [PartialOp.Unlimited]))
    2 6 [4]
    (fun i => Or.inr rfl)
    (fun i => by
      match i with
      | 0 => exact Or.inl rfl
      | j + 1 => exact Or.inr rfl)).1

/-- C5 counterexample: the decorators keep consulting the directive
iterator after it has signalled exhaustion, and a (legal, non-fused) Rust
iterator may resume yielding directives after `None` — so behavior does
not stay unrestricted permanently.  Here the iterator signals exhaustion
on the first call (so that read delegates natively), yet the second read
on the same decorator consumes a revived `Pending` directive and returns
not-ready while a direct drive of the wrapped stream would be ready. -/
theorem exhaustion_not_permanent_counterexample :
    nonFusedOps.op? 0 = none ∧
    (PartialRead.poll_read echoRW (PartialRead.new 0 nonFusedOps) 0 5).1 =
      Except.ok (Async.ready 5) ∧
    (PartialRead.poll_read echoRW
        (PartialRead.poll_read echoRW
          (PartialRead.new 0 nonFusedOps) 0 5).2.1 0 5).1 =
      Except.ok Async.pending ∧
    (echoRW.pollRead
        (PartialRead.poll_read echoRW
          (PartialRead.new 0 nonFusedOps) 0 5).2.1.reader 5).1 =
      Except.ok (Async.ready 5) :=
  ⟨rfl, rfl, rfl, rfl⟩

/-- C5 as amended: each call on which the iterator yields no directive
delegates unrestricted; for a fused (list-backed) iterator, once the
position has passed the end of the list every subsequent operation
delegates natively and the position stays past the end, so the
unrestricted behavior is permanent. -/
theorem exhausted_list_stays_unrestricted
    (rw : RW σ ε) (lp lq : List PartialOp)
    (p : PartialRead σ) (q : PartialWrite σ)
    (cx bufLen : Nat) (buf : List Nat)
    (hp : p.ops.op? = fun i => lp.get? i) (hppos : lp.length ≤ p.ops.pos)
    (hq : q.ops.op? = fun i => lq.get? i) (hqpos : lq.length ≤ q.ops.pos) :
    PartialRead.poll_read rw p cx bufLen =
      ((rw.pollRead p.reader bufLen).1,
        ⟨(rw.pollRead p.reader bufLen).2, ⟨p.ops.op?, p.ops.pos + 1⟩⟩, cx) ∧
    lp.length ≤ p.ops.pos + 1 ∧
    PartialWrite.poll_write rw q cx buf =
      ((rw.pollWrite q.writer buf).1,
        ⟨(rw.pollWrite q.writer buf).2, ⟨q.ops.op?, q.ops.pos + 1⟩⟩, cx) ∧
    PartialWrite.poll_flush rw q cx =
      ((rw.pollFlush q.writer).1,
        ⟨(rw.pollFlush q.writer).2, ⟨q.ops.op?, q.ops.pos + 1⟩⟩, cx) ∧
    PartialWrite.poll_close rw q cx =
      ((rw.pollClose q.writer).1,
        ⟨(rw.pollClose q.writer).2, ⟨q.ops.op?, q.ops.pos + 1⟩⟩, cx) ∧
    lq.length ≤ q.ops.pos + 1 := by
  have hpn : p.ops.op? p.ops.pos = none := by
    rw [hp]; exact List.get?_eq_none.mpr hppos
  have hqn : q.ops.op? q.ops.pos = none := by
    rw [hq]; exact List.get?_eq_none.mpr hqpos
  refine ⟨PartialRead.poll_read_none rw p cx bufLen hpn, by omega,
    PartialWrite.poll_write_none rw q cx buf hqn,
    PartialWrite.poll_flush_other rw q cx (by simp [hqn]),
    PartialWrite.poll_close_other rw q cx (by simp [hqn]), by omega⟩

/-- Witness for the amended C5 at a one-directive list whose iterator is
already past the end. -/
theorem exhausted_list_stays_unrestricted_witness :
    PartialRead.poll_read echoRW
        (⟨0, ⟨fun i => [PartialOp.Pending].get? i, 1⟩⟩ : PartialRead Nat)
        0 6 =
      ((echoRW.pollRead 0 6).1,
        ⟨(echoRW.pollRead 0 6).2,
          ⟨fun i => [PartialOp.Pending].get? i, 2⟩⟩, 0) :=
  (exhausted_list_stays_unrestricted echoRW [PartialOp.Pending] []
    (⟨0, ⟨fun i => [PartialOp.Pending].get? i, 1⟩⟩ : PartialRead Nat)
    (PartialWrite.new 0 (OpsIter.ofList []))
    0 6 [3] rfl (by decide) rfl (by decide)).1

/-- C6: errors propagate verbatim, in both directions.  Forward: on every
delegated branch (any directive but `Pending`), if the wrapped stream's
call on the effective window fails with `e`, the decorator returns exactly
`Except.error e` — no retry, wrapping, modification, or suppression.
Converse: every error the decorator surfaces is exactly an error the
wrapped stream returned on the delegated window (a prefix of the caller's
buffer), and the `Pending` branch returns `Ok`, so the decorators never
construct an error of their own on any path. -/
theorem errors_propagate_verbatim
    (rw : RW σ ε) (p : PartialRead σ) (q : PartialWrite σ)
    (cx bufLen : Nat) (buf : List Nat) :
    (∀ e, (p.ops.op? p.ops.pos = none ∨
        p.ops.op? p.ops.pos = some PartialOp.Unlimited) →
      (rw.pollRead p.reader bufLen).1 = Except.error e →
      (PartialRead.poll_read rw p cx bufLen).1 = Except.error e) ∧
    (∀ n e, p.ops.op? p.ops.pos = some (PartialOp.Limited n) →
      (rw.pollRead p.reader (min n bufLen)).1 = Except.error e →
      (PartialRead.poll_read rw p cx bufLen).1 = Except.error e) ∧
    (∀ e, (q.ops.op? q.ops.pos = none ∨
        q.ops.op? q.ops.pos = some PartialOp.Unlimited) →
      (rw.pollWrite q.writer buf).1 = Except.error e →
      (PartialWrite.poll_write rw q cx buf).1 = Except.error e) ∧
    (∀ n e, q.ops.op? q.ops.pos = some (PartialOp.Limited n) →
      (rw.pollWrite q.writer (buf.take (min n buf.length))).1 =
        Except.error e →
      (PartialWrite.poll_write rw q cx buf).1 = Except.error e) ∧
    (∀ e, q.ops.op? q.ops.pos ≠ some PartialOp.Pending →
      (rw.pollFlush q.writer).1 = Except.error e →
      (PartialWrite.poll_flush rw q cx).1 = Except.error e) ∧
    (∀ e, q.ops.op? q.ops.pos ≠ some PartialOp.Pending →
      (rw.pollClose q.writer).1 = Except.error e →
      (PartialWrite.poll_close rw q cx).1 = Except.error e) ∧
    (∀ e, (PartialRead.poll_read rw p cx bufLen).1 = Except.error e →
      ∃ w, w ≤ bufLen ∧ (rw.pollRead p.reader w).1 = Except.error e) ∧
    (∀ e, (PartialWrite.poll_write rw q cx buf).1 = Except.error e →
      ∃ w, w ≤ buf.length ∧
        (rw.pollWrite q.writer (buf.take w)).1 = Except.error e) ∧
    (∀ e, (PartialWrite.poll_flush rw q cx).1 = Except.error e →
      (rw.pollFlush q.writer).1 = Except.error e) ∧
    (∀ e, (PartialWrite.poll_close rw q cx).1 = Except.error e →
      (rw.pollClose q.writer).1 = Except.error e) := by
  refine ⟨?_, ?_, ?_, ?_, ?_, ?_, ?_, ?_, ?_, ?_⟩
  · intro e hd he
    rcases hd with h | h
    · rw [PartialRead.poll_read_none rw p cx bufLen h]; exact he
    · rw [PartialRead.poll_read_unlimited rw p cx bufLen h]; exact he
  · intro n e hd he
    rw [PartialRead.poll_read_limited rw p cx bufLen n hd]; exact he
  · intro e hd he
    rcases hd with h | h
    · rw [PartialWrite.poll_write_none rw q cx buf h]; exact he
    · rw [PartialWrite.poll_write_unlimited rw q cx buf h]; exact he
  · intro n e hd he
    rw [PartialWrite.poll_write_limited rw q cx n buf hd]; exact he
  · intro e hd he
    rw [PartialWrite.poll_flush_other rw q cx hd]; exact he
  · intro e hd he
    rw [PartialWrite.poll_close_other rw q cx hd]; exact he
  · intro e he
    rcases hd : p.ops.op? p.ops.pos with _ | op
    · rw [PartialRead.poll_read_none rw p cx bufLen hd] at he
      exact ⟨bufLen, le_refl bufLen, he⟩
    · cases op with
      | Unlimited =>
        rw [PartialRead.poll_read_unlimited rw p cx bufLen hd] at he
        exact ⟨bufLen, le_refl bufLen, he⟩
      | Limited n =>
        rw [PartialRead.poll_read_limited rw p cx bufLen n hd] at he
        exact ⟨min n bufLen, Nat.min_le_right n bufLen, he⟩
      | Pending =>
        rw [PartialRead.poll_read_pending rw p cx bufLen hd] at he
        exact absurd he (by simp)
  · intro e he
    rcases hd : q.ops.op? q.ops.pos with _ | op
    · rw [PartialWrite.poll_write_none rw q cx buf hd] at he
      exact ⟨buf.length, le_refl buf.length, by rw [List.take_length]; exact he⟩
    · cases op with
      | Unlimited =>
        rw [PartialWrite.poll_write_unlimited rw q cx buf hd] at he
        exact ⟨buf.length, le_refl buf.length,
          by rw [List.take_length]; exact he⟩
      | Limited n =>
        rw [PartialWrite.poll_write_limited rw q cx n buf hd] at he
        exact ⟨min n buf.length, Nat.min_le_right n buf.length, he⟩
      | Pending =>
        rw [PartialWrite.poll_write_pending rw q cx buf hd] at he
        exact absurd he (by simp)
  · intro e he
    by_cases hd : q.ops.op? q.ops.pos = some PartialOp.Pending
    · rw [PartialWrite.poll_flush_pending rw q cx hd] at he
      exact absurd he (by simp)
    · rw [PartialWrite.poll_flush_other rw q cx hd] at he
      exact he
  · intro e he
    by_cases hd : q.ops.op? q.ops.pos = some PartialOp.Pending
    · rw [PartialWrite.poll_close_pending rw q cx hd] at he
      exact absurd he (by simp)
    · rw [PartialWrite.poll_close_other rw q cx hd] at he
      exact he

/-- Witness for C6: an always-failing wrapped stream has its exact error
returned by the read decorator on a delegated (exhausted-sequence) call,
and every error the decorator surfaces comes from the wrapped stream. -/
theorem errors_propagate_verbatim_witness :
    (PartialRead.poll_read errRW
        (PartialRead.new () (OpsIter.ofList [])) 0 4).1 = Except.error 7 ∧
    (∃ w, w ≤ 4 ∧ (errRW.pollRead () w).1 = Except.error 7) :=
  ⟨(errors_propagate_verbatim errRW
      (PartialRead.new () (OpsIter.ofList []))
      (PartialWrite.new () (OpsIter.ofList []))
      0 4 [1]).1 7 (Or.inl rfl) rfl,
   (errors_propagate_verbatim errRW
      (PartialRead.new () (OpsIter.ofList []))
      (PartialWrite.new () (OpsIter.ofList []))
      0 4 [1]).2.2.2.2.2.2.1 7 rfl⟩

/-- Every element produced by the unsigned-shrinker loop is strictly below
the starting value. -/
lemma unsignedShrinkAux_lt (x : Nat) (hx : 0 < x) :
    ∀ i, ∀ k ∈ unsignedShrinkAux x i, k < x := by
  intro i
  induction i using Nat.strong_induction_on with
  | _ i ih =>
    match i with
    | 0 =>
      intro k hk
      simp [unsignedShrinkAux] at hk
    | j + 1 =>
      intro k hk
      rw [unsignedShrinkAux] at hk
      rcases List.mem_cons.mp hk with h | h
      · subst h; omega
      · exact ih ((j + 1) / 2) (Nat.div_lt_self (Nat.succ_pos j) one_lt_two)
          k h

/-- C7: shrinking `Limited n` with `n > 1` yields only directives of the
form `Limited k` with `0 < k < n`; `Unlimited` and `Pending` shrink to
nothing. -/
theorem shrink_limited_law (n : Nat) (hn : 1 < n) :
    (∀ op ∈ PartialOp.shrink (PartialOp.Limited n),
      ∃ k, op = PartialOp.Limited k ∧ 0 < k ∧ k < n) ∧
    PartialOp.shrink PartialOp.Unlimited = [] ∧
    PartialOp.shrink PartialOp.Pending = [] := by
  refine ⟨?_, rfl, rfl⟩
  intro op hop
  simp only [PartialOp.shrink, List.mem_map, List.mem_filter,
    decide_eq_true_eq] at hop
  obtain ⟨k, ⟨hmem, hk0⟩, rfl⟩ := hop
  refine ⟨k, rfl, Nat.pos_of_ne_zero hk0, ?_⟩
  rw [shrinkUsize, if_neg (by omega)] at hmem
  rcases List.mem_cons.mp hmem with h | h
  · omega
  · exact unsignedShrinkAux_lt n (by omega) (n / 2) k h

/-- Witness for C7 at `n = 5`. -/
theorem shrink_limited_law_witness :
    (∀ op ∈ PartialOp.shrink (PartialOp.Limited 5),
      ∃ k, op = PartialOp.Limited k ∧ 0 < k ∧ k < 5) ∧
    PartialOp.shrink PartialOp.Unlimited = [] ∧
    PartialOp.shrink PartialOp.Pending = [] :=
  shrink_limited_law 5 (by decide)

/-- C8: `Limited 0` is a constructible directive; a read or write that
consumes it hands the wrapped stream a zero-length window (`min 0 L = 0`;
the empty source prefix on the write side), so — provided the wrapped
stream never reports a count larger than its buffer — any ready count is
exactly `0`, indistinguishable at the interface from end-of-stream or a
zero-byte write. -/
theorem limited_zero_window
    (rw : RW σ ε) (p : PartialRead σ) (q : PartialWrite σ)
    (cx bufLen : Nat) (buf : List Nat)
    (hp : p.ops.op? p.ops.pos = some (PartialOp.Limited 0))
    (hq : q.ops.op? q.ops.pos = some (PartialOp.Limited 0))
    (hr : ∀ s L c, (rw.pollRead s L).1 = Except.ok (Async.ready c) → c ≤ L)
    (hw : ∀ s b c, (rw.pollWrite s b).1 = Except.ok (Async.ready c) →
      c ≤ b.length) :
    (PartialRead.poll_read rw p cx bufLen).1 = (rw.pollRead p.reader 0).1 ∧
    (∀ c, (PartialRead.poll_read rw p cx bufLen).1 =
      Except.ok (Async.ready c) → c = 0) ∧
    (PartialWrite.poll_write rw q cx buf).1 = (rw.pollWrite q.writer []).1 ∧
    (∀ c, (PartialWrite.poll_write rw q cx buf).1 =
      Except.ok (Async.ready c) → c = 0) := by
  have h0 : min 0 bufLen = 0 := Nat.zero_min bufLen
  have h1 : min 0 buf.length = 0 := Nat.zero_min buf.length
  rw [PartialRead.poll_read_limited rw p cx bufLen 0 hp,
    PartialWrite.poll_write_limited rw q cx 0 buf hq, h0, h1, List.take_zero]
  refine ⟨rfl, ?_, rfl, ?_⟩
  · intro c hc
    have := hr p.reader 0 c hc
    omega
  · intro c hc
    have := hw q.writer [] c hc
    simpa using this

/-- Witness for C8 at a concrete stream and `Limited 0`. -/
theorem limited_zero_window_witness :
    (PartialRead.poll_read echoRW
        (PartialRead.new 0 (OpsIter.ofList [PartialOp.Limited 0])) 0 8).1 =
      (echoRW.pollRead 0 0).1 ∧
    (∀ c, (PartialRead.poll_read echoRW
        (PartialRead.new 0 (OpsIter.ofList [PartialOp.Limited 0])) 0 8).1 =
      Except.ok (Async.ready c) → c = 0) ∧
    (PartialWrite.poll_write echoRW
        (PartialWrite.new 0 (OpsIter.ofList [PartialOp.Limited 0])) 0
        [1, 2]).1 = (echoRW.pollWrite 0 []).1 ∧
    (∀ c, (PartialWrite.poll_write echoRW
        (PartialWrite.new 0 (OpsIter.ofList [PartialOp.Limited 0])) 0
        [1, 2]).1 = Except.ok (Async.ready c) → c = 0) :=
  limited_zero_window echoRW
    (PartialRead.new 0 (OpsIter.ofList [PartialOp.Limited 0]))
    (PartialWrite.new 0 (OpsIter.ofList [PartialOp.Limited 0]))
    0 8 [1, 2] rfl rfl
    (by intro s L c h; simp [echoRW] at h; omega)
    (by intro s b c h; simp [echoRW] at h; omega)

/-- C9: `MockDuplex::read` and `MockDuplex::drain_write_data` drain the
index range `0..len(buf)` from their queue: when `len(buf)` is at most the
queued byte count each call transfers exactly the first `len(buf)` queued
bytes in FIFO order and returns `len(buf)`; a strictly longer buffer makes
the drain range exceed the queue, so the call panics (modelled `none`)
instead of returning the shorter available count. -/
theorem mock_duplex_exact_drain (m : MockDuplex) (bufLen : Nat) :
    (bufLen ≤ m.reads.length →
      MockDuplex.read m bufLen =
        some (bufLen, m.reads.take bufLen, ⟨m.reads.drop bufLen, m.writes⟩)) ∧
    (m.reads.length < bufLen → MockDuplex.read m bufLen = none) ∧
    (bufLen ≤ m.writes.length →
      MockDuplex.drain_write_data m bufLen =
        some (bufLen, m.writes.take bufLen,
          ⟨m.reads, m.writes.drop bufLen⟩)) ∧
    (m.writes.length < bufLen →
      MockDuplex.drain_write_data m bufLen = none) := by
  refine ⟨?_, ?_, ?_, ?_⟩
  · intro h
    simp [MockDuplex.read, drainFront, if_pos h, List.length_take,
      Nat.min_eq_left h]
  · intro h
    simp [MockDuplex.read, drainFront, if_neg (by omega : ¬bufLen ≤ m.reads.length)]
  · intro h
    simp [MockDuplex.drain_write_data, drainFront, if_pos h, List.length_take,
      Nat.min_eq_left h]
  · intro h
    simp [MockDuplex.drain_write_data, drainFront,
      if_neg (by omega : ¬bufLen ≤ m.writes.length)]

/-- Witness for C9: an in-bounds read drains FIFO, an out-of-bounds drain
of the write queue panics. -/
theorem mock_duplex_exact_drain_witness :
    MockDuplex.read ⟨[1, 2, 3], [4, 5]⟩ 2 =
      some (2, [1, 2], ⟨[3], [4, 5]⟩) ∧
    MockDuplex.drain_write_data ⟨[1, 2, 3], [4, 5]⟩ 9 = none :=
  ⟨(mock_duplex_exact_drain ⟨[1, 2, 3], [4, 5]⟩ 2).1 (by decide),
   (mock_duplex_exact_drain ⟨[1, 2, 3], [4, 5]⟩ 9).2.2.2 (by decide)⟩

/-- C10: `LimitedReader::poll_read` never writes `remaining` (assigned
only by `new`), so every call delegates with the window
`min limit (len buf)` computed from the construction-time limit, and the
cumulative bytes read across calls are not bounded by the limit: two
reads on a limit-1 reader over an always-full stream each return 1 byte,
for a total of 2 > 1. -/
theorem limited_reader_never_decrements
    (rw : RW σ ε) (l : LimitedReader σ) (cx bufLen : Nat) (s : σ)
    (limit : Nat) :
    (LimitedReader.poll_read rw l cx bufLen).2.1.remaining = l.remaining ∧
    (LimitedReader.poll_read rw l cx bufLen).1 =
      (rw.pollRead l.inner (min l.remaining bufLen)).1 ∧
    (LimitedReader.new s limit).remaining = limit ∧
    (LimitedReader.poll_read echoRW (LimitedReader.new 0 1) 0 1).1 =
      Except.ok (Async.ready 1) ∧
    (LimitedReader.poll_read echoRW
        (LimitedReader.poll_read echoRW
          (LimitedReader.new 0 1) 0 1).2.1 0 1).1 =
      Except.ok (Async.ready 1) ∧
    1 + 1 > 1 :=
  ⟨rfl, rfl, rfl, rfl, rfl, by omega⟩

end AtmIoUtils
